import Mathlib

/-!
Verification development for the SimpleMIDI animation engine
(`src/__init__.py` and `src/MidiControl.py`).

The Python source is shallowly embedded: pure helper functions become Lean
functions, Python floats are idealized as real numbers (`ℝ`) where
transcendental functions occur and as rationals (`ℚ`) in the purely
rational interpolation engine, Python exceptions become `Except`/`Option`
results, and the fall-through behaviour of the evaluator is translated
branch by branch.
-/

set_option maxRecDepth 4000

/-- The single-quote character (used instead of a quoted literal). -/
def squote : Char := Char.ofNat 39

/-- The double-quote character. -/
def dquote : Char := Char.ofNat 34

/-- A one-character string holding a double quote. -/
def dq : String := String.mk [dquote]

/- ===========================================================
   robust_path_split  (src/__init__.py lines 80-104)

   Python:
     parts = []; current = ""; in_quote = False; in_bracket = False
     quote_char = None
     for char in path:
         if char in ["'", '"']:
             if not in_quote: in_quote, quote_char = True, char
             elif char == quote_char: in_quote, quote_char = False, None
         elif char == '[':
             if not in_quote: in_bracket = True
         elif char == ']':
             if not in_quote: in_bracket = False
         if char == '.' and not in_quote and not in_bracket:
             parts.append(current); current = ""
         else: current += char
     if current: parts.append(current)
     return parts
   =========================================================== -/

/-- One step of the quote/bracket state machine of `robust_path_split`:
given a character and the current (in_quote, quote_char, in_bracket)
state, return the updated state.  Mirrors the if/elif chain of the
source line by line; note that the bracket flag is a single Bool. -/
def rpsStep (c : Char) (inQ : Bool) (qc : Option Char) (inB : Bool) :
    Bool × Option Char × Bool :=
  if c = squote ∨ c = dquote then
    if inQ = false then (true, some c, inB)
    else if some c = qc then (false, none, inB)
    else (inQ, qc, inB)
  else if c = '[' then
    (inQ, qc, if inQ = false then true else inB)
  else if c = ']' then
    (inQ, qc, if inQ = false then false else inB)
  else (inQ, qc, inB)

/-- The character-by-character loop of `robust_path_split`. -/
def rpsGo : List Char → Bool → Option Char → Bool → String →
    List String → List String
  | [], _, _, _, cur, parts => if cur ≠ "" then parts ++ [cur] else parts
  | c :: cs, inQ, qc, inB, cur, parts =>
    match rpsStep c inQ qc inB with
    | (inQ2, qc2, inB2) =>
      if c = '.' ∧ inQ2 = false ∧ inB2 = false then
        rpsGo cs inQ2 qc2 inB2 "" (parts ++ [cur])
      else
        rpsGo cs inQ2 qc2 inB2 (cur.push c) parts

/-- `robust_path_split` from `src/__init__.py`: split a data path at
dots, ignoring dots while the quote flag or the (boolean) bracket flag
is set. -/
def robust_path_split (path : String) : List String :=
  rpsGo path.toList false none false "" []

/- ===========================================================
   The splitter described by the claim: same scan, but tracking an
   integer bracket DEPTH so that nesting is respected.
   =========================================================== -/

/-- Loop of the depth-tracking splitter of the claim (spec §4.1): same
quote handling, but an integer bracket depth instead of a flag.  This
definition follows the claim's words, for comparison with
`robust_path_split`. -/
def depthGo : List Char → Bool → Option Char → Nat → String →
    List String → List String
  | [], _, _, _, cur, parts => if cur ≠ "" then parts ++ [cur] else parts
  | c :: cs, inQ, qc, d, cur, parts =>
    match rpsStep c inQ qc false with
    | (inQ2, qc2, _) =>
      let d2 : Nat :=
        if (c = '[' ∧ inQ = false) then d + 1
        else if (c = ']' ∧ inQ = false) then d - 1
        else d
      if c = '.' ∧ inQ2 = false ∧ d2 = 0 then
        depthGo cs inQ2 qc2 d2 "" (parts ++ [cur])
      else
        depthGo cs inQ2 qc2 d2 (cur.push c) parts

/-- Depth-tracking split of a whole path (the behaviour the claim
describes: a dot at any positive bracket depth, or inside quotes, never
starts a new segment). -/
def depth_tracking_split (path : String) : List String :=
  depthGo path.toList false none 0 "" []

/-- Scan predicate: the bracket structure of the path never nests
(depth stays ≤ 1) and close brackets are matched, brackets inside
quoted regions not counting.  On such paths the boolean flag of the
source agrees with a true depth counter. -/
def depthOkGo : List Char → Bool → Option Char → Nat → Bool
  | [], _, _, _ => true
  | c :: cs, inQ, qc, d =>
    match rpsStep c inQ qc false with
    | (inQ2, qc2, _) =>
      if c = '[' ∧ inQ = false then
        if d = 0 then depthOkGo cs inQ2 qc2 1 else false
      else if c = ']' ∧ inQ = false then
        if d = 1 then depthOkGo cs inQ2 qc2 0 else false
      else depthOkGo cs inQ2 qc2 d

/-- A path has non-nested, matched brackets. -/
def depthOk (path : String) : Bool :=
  depthOkGo path.toList false none 0

/-- The nested-bracket example on which the flag scanner and the depth
scanner disagree. -/
def nestedPath : String := "a[b[0].c]"

/- ===========================================================
   SECTION: safe math evaluator  (src/__init__.py lines 16-70)

   The source parses the expression with the host parser
   (ast.parse(expression, mode="eval")) and walks the tree with
   _eval_node.  Below, the relevant fragment of the host expression
   grammar (numbers, string literals, names, + - * / ** ^, unary + -,
   calls, parentheses) is modelled by an explicit tokenizer and
   recursive-descent parser with the host precedence; inputs outside
   the fragment fail to parse, matching the top-level exception
   handler that returns 0.0.  Python floats are idealized as ℝ.
   =========================================================== -/

/-- A numeric literal kept in exact decimal form (mantissa digits,
number of fractional digits, scientific exponent), so that literal
syntax trees compare by kernel computation; its real value is taken
at evaluation time. -/
structure PyNum where
  mant : Nat
  fracLen : Nat
  exp : Int
  deriving DecidableEq

/-- The real value of a numeric literal. -/
noncomputable def pyNumVal (n : PyNum) : ℝ :=
  ((n.mant : ℝ) / (10 : ℝ) ^ n.fracLen) * (10 : ℝ) ^ n.exp

/-- Tokens of the modelled expression fragment. -/
inductive Tok where
  | num (n : PyNum)
  | ident (s : String)
  | strlit (s : String)
  | plus | minus | star | dstar | slash | caret | lparen | rparen | comma
  deriving DecidableEq

/-- Read a maximal run of decimal digits. -/
def readDigits : List Char → List Char × List Char
  | [] => ([], [])
  | c :: cs =>
    if c.isDigit then
      let p := readDigits cs
      (c :: p.1, p.2)
    else ([], c :: cs)

/-- Value of a digit run. -/
def digitsToNat (ds : List Char) : Nat :=
  ds.foldl (fun a c => a * 10 + (c.toNat - 48)) 0

/-- Optional scientific-notation suffix (e or E, optional sign,
mandatory digits); absent suffix returns exponent zero. -/
def readExpPart (mant fracLen : Nat) : List Char → Option (PyNum × List Char)
  | [] => some (⟨mant, fracLen, 0⟩, [])
  | c :: cs =>
    if c = 'e' ∨ c = 'E' then
      match cs with
      | [] => none
      | d :: cs2 =>
        if d = '+' then
          match readDigits cs2 with
          | ([], _) => none
          | (ds, r) => some (⟨mant, fracLen, (digitsToNat ds : Int)⟩, r)
        else if d = '-' then
          match readDigits cs2 with
          | ([], _) => none
          | (ds, r) => some (⟨mant, fracLen, -(digitsToNat ds : Int)⟩, r)
        else if d.isDigit then
          match readDigits (d :: cs2) with
          | ([], _) => none
          | (ds, r) => some (⟨mant, fracLen, (digitsToNat ds : Int)⟩, r)
        else none
    else some (⟨mant, fracLen, 0⟩, c :: cs)

/-- Read one numeric literal (digits, optional fraction, optional
exponent), starting at a digit or at a dot followed by a digit. -/
def readNumber (input : List Char) : Option (PyNum × List Char) :=
  let p := readDigits input
  match p.2 with
  | c :: r1 =>
    if c = '.' then
      let pf := readDigits r1
      readExpPart (digitsToNat p.1 * 10 ^ pf.1.length + digitsToNat pf.1)
        pf.1.length pf.2
    else readExpPart (digitsToNat p.1) 0 p.2
  | [] => some (⟨digitsToNat p.1, 0, 0⟩, [])

/-- Read a maximal identifier (letters, digits, underscore). -/
def readIdent : List Char → List Char × List Char
  | [] => ([], [])
  | c :: cs =>
    if c.isAlphanum ∨ c = '_' then
      let p := readIdent cs
      (c :: p.1, p.2)
    else ([], c :: cs)

/-- Read a string literal body up to the closing quote `q`;
unterminated literals fail. -/
def readStrLit (q : Char) : List Char → Option (List Char × List Char)
  | [] => none
  | c :: cs =>
    if c = q then some ([], cs)
    else (readStrLit q cs).map (fun p => (c :: p.1, p.2))

/-- The tokenizer loop; the fuel is an upper bound on the number of
steps (each step consumes at least one character). -/
def tokenizeGo : Nat → List Char → Option (List Tok)
  | 0, _ => none
  | _ + 1, [] => some []
  | fuel + 1, c :: cs =>
    if c = ' ' ∨ c = '\t' ∨ c = '\n' ∨ c = '\r' then tokenizeGo fuel cs
    else if c.isDigit ∨ (c = '.' ∧ (cs.head?.elim false Char.isDigit)) then
      match readNumber (c :: cs) with
      | none => none
      | some (n, r) => (tokenizeGo fuel r).map (Tok.num n :: ·)
    else if c.isAlpha ∨ c = '_' then
      let p := readIdent (c :: cs)
      (tokenizeGo fuel p.2).map (Tok.ident (String.mk p.1) :: ·)
    else if c = squote ∨ c = dquote then
      match readStrLit c cs with
      | none => none
      | some (body, r) => (tokenizeGo fuel r).map (Tok.strlit (String.mk body) :: ·)
    else if c = '+' then (tokenizeGo fuel cs).map (Tok.plus :: ·)
    else if c = '-' then (tokenizeGo fuel cs).map (Tok.minus :: ·)
    else if c = '*' then
      match cs with
      | d :: cs2 => if d = '*' then (tokenizeGo fuel cs2).map (Tok.dstar :: ·)
                    else (tokenizeGo fuel cs).map (Tok.star :: ·)
      | [] => (tokenizeGo fuel cs).map (Tok.star :: ·)
    else if c = '/' then (tokenizeGo fuel cs).map (Tok.slash :: ·)
    else if c = '^' then (tokenizeGo fuel cs).map (Tok.caret :: ·)
    else if c = '(' then (tokenizeGo fuel cs).map (Tok.lparen :: ·)
    else if c = ')' then (tokenizeGo fuel cs).map (Tok.rparen :: ·)
    else if c = ',' then (tokenizeGo fuel cs).map (Tok.comma :: ·)
    else none

/-- Tokenize a whole source string. -/
def tokenize (src : String) : Option (List Tok) :=
  tokenizeGo (src.toList.length + 1) src.toList

/-- Binary operator nodes of the host syntax tree that can occur in
the fragment.  `bitxor` is the caret operator, which is NOT in
SAFE_OPERATORS (the source maps ast.Pow, i.e. the double star, to
operator.pow). -/
inductive PyOp where
  | add | sub | mult | div | pow | bitxor
  deriving DecidableEq

/-- Unary operator nodes (both are in SAFE_OPERATORS). -/
inductive PyUnary where
  | usub | uadd
  deriving DecidableEq

/-- Expression nodes of the modelled fragment of the host syntax
tree.  The parser only produces calls whose callee is a plain name,
matching the `node.func.id` access of `_eval_node`. -/
inductive PyExpr where
  | const (n : PyNum)
  | strConst (s : String)
  | name (s : String)
  | binop (op : PyOp) (a b : PyExpr)
  | unaryop (op : PyUnary) (a : PyExpr)
  | call (f : String) (args : List PyExpr)

/- Recursive-descent parser with the host precedence for the fragment:
   caret (lowest, left-assoc) < plus/minus < star/slash < unary < double
   star (right-assoc, unary allowed on its right) < atoms and calls.
   The fuel argument only bounds recursion depth; it is chosen large
   enough for every token list in `parseExpr`. -/

mutual

/-- Parse at caret level (left-associative, the lowest level of the
fragment). -/
def parseXor : Nat → List Tok → Option (PyExpr × List Tok)
  | 0, _ => none
  | fuel + 1, ts => do
    let p ← parseAdd fuel ts
    parseXorRest fuel p.1 p.2

/-- Left-associative continuation at caret level. -/
def parseXorRest : Nat → PyExpr → List Tok → Option (PyExpr × List Tok)
  | 0, _, _ => none
  | fuel + 1, a, ts =>
    match ts with
    | .caret :: r => do
      let p ← parseAdd fuel r
      parseXorRest fuel (.binop .bitxor a p.1) p.2
    | _ => some (a, ts)

/-- Parse at additive level. -/
def parseAdd : Nat → List Tok → Option (PyExpr × List Tok)
  | 0, _ => none
  | fuel + 1, ts => do
    let p ← parseMul fuel ts
    parseAddRest fuel p.1 p.2

/-- Left-associative continuation at additive level. -/
def parseAddRest : Nat → PyExpr → List Tok → Option (PyExpr × List Tok)
  | 0, _, _ => none
  | fuel + 1, a, ts =>
    match ts with
    | .plus :: r => do
      let p ← parseMul fuel r
      parseAddRest fuel (.binop .add a p.1) p.2
    | .minus :: r => do
      let p ← parseMul fuel r
      parseAddRest fuel (.binop .sub a p.1) p.2
    | _ => some (a, ts)

/-- Parse at multiplicative level. -/
def parseMul : Nat → List Tok → Option (PyExpr × List Tok)
  | 0, _ => none
  | fuel + 1, ts => do
    let p ← parseUnary fuel ts
    parseMulRest fuel p.1 p.2

/-- Left-associative continuation at multiplicative level. -/
def parseMulRest : Nat → PyExpr → List Tok → Option (PyExpr × List Tok)
  | 0, _, _ => none
  | fuel + 1, a, ts =>
    match ts with
    | .star :: r => do
      let p ← parseUnary fuel r
      parseMulRest fuel (.binop .mult a p.1) p.2
    | .slash :: r => do
      let p ← parseUnary fuel r
      parseMulRest fuel (.binop .div a p.1) p.2
    | _ => some (a, ts)

/-- Parse a unary expression (chains of unary plus/minus above the
power level, as in the host grammar). -/
def parseUnary : Nat → List Tok → Option (PyExpr × List Tok)
  | 0, _ => none
  | fuel + 1, ts =>
    match ts with
    | .minus :: r => do
      let p ← parseUnary fuel r
      some (.unaryop .usub p.1, p.2)
    | .plus :: r => do
      let p ← parseUnary fuel r
      some (.unaryop .uadd p.1, p.2)
    | _ => parsePower fuel ts

/-- Parse a power expression: an atom, optionally followed by a double
star and a unary expression (right-associative). -/
def parsePower : Nat → List Tok → Option (PyExpr × List Tok)
  | 0, _ => none
  | fuel + 1, ts => do
    let p ← parseAtom fuel ts
    match p.2 with
    | .dstar :: r2 => do
      let pb ← parseUnary fuel r2
      some (.binop .pow p.1 pb.1, pb.2)
    | _ => some p

/-- Parse an atom: literal, name, call of a name, or parenthesized
expression. -/
def parseAtom : Nat → List Tok → Option (PyExpr × List Tok)
  | 0, _ => none
  | fuel + 1, ts =>
    match ts with
    | .num q :: r => some (.const q, r)
    | .strlit s :: r => some (.strConst s, r)
    | .ident s :: r =>
      match r with
      | .lparen :: .rparen :: r3 => some (.call s [], r3)
      | .lparen :: r2 => do
        let p ← parseArgs fuel r2
        match p.2 with
        | .rparen :: r4 => some (.call s p.1, r4)
        | _ => none
      | _ => some (.name s, r)
    | .lparen :: r => do
      let p ← parseXor fuel r
      match p.2 with
      | .rparen :: r3 => some (p.1, r3)
      | _ => none
    | _ => none

/-- Parse a nonempty comma-separated argument list. -/
def parseArgs : Nat → List Tok → Option (List PyExpr × List Tok)
  | 0, _ => none
  | fuel + 1, ts => do
    let p ← parseXor fuel ts
    match p.2 with
    | .comma :: r2 => do
      let pr ← parseArgs fuel r2
      some (p.1 :: pr.1, pr.2)
    | _ => some ([p.1], p.2)

end

/-- Parse a whole source string into a syntax tree; any leftover
tokens are a syntax error (`none`), as in the host parser. -/
def parseExpr (src : String) : Option PyExpr :=
  match tokenize src with
  | none => none
  | some ts =>
    match parseXor (16 * (ts.length + 1)) ts with
    | some (e, []) => some e
    | _ => none

/- ===========================================================
   _eval_node  (src/__init__.py lines 37-58)
   =========================================================== -/

/-- Runtime values of the evaluator that can occur in the fragment:
numbers (floats idealized as ℝ) and strings.  The engine context of
`apply_to_blender` also stores host function objects under the
function names; looking such a value up would make every arithmetic
use of it raise, which the claims never exercise, so function values
are not modelled. -/
inductive Value where
  | num (x : ℝ)
  | str (s : String)

/-- A variable context: the `context` dictionary of `_eval_node`. -/
def Ctx : Type := String → Option Value

/-- The keys of the SAFE_FUNCTIONS whitelist (src/__init__.py lines
20-24).  Note that `pi` is a key of the dictionary as well, bound to
the float math.pi, so a call `pi(...)` passes the membership test and
then raises because a float is not callable. -/
def SAFE_FUNCTIONS_names : List String :=
  ["sin", "cos", "tan", "pi", "sqrt", "pow", "abs", "round", "min", "max"]

/-- Banker's rounding of the Python builtin `round` with one
argument; the two-argument form is not modelled (it does not occur in
any claim). -/
noncomputable def roundHalfEven (x : ℝ) : ℝ :=
  let n : ℤ := ⌊x⌋
  if x - n < 1 / 2 then n
  else if 1 / 2 < x - n then n + 1
  else if Even n then n else n + 1

open Classical in
/-- Exponentiation as used both for `math.pow` and for the double-star
operator: a zero base with negative exponent raises, and a negative
base with non-integer exponent is an error in `math.pow` (the
double-star operator would produce a complex number there, which every
later numeric step of `_eval_node` or the final float() conversion
turns into a caught exception, so it is modelled as an error as
well); otherwise the value is real exponentiation, which agrees with
the host on every remaining case. -/
noncomputable def pyPow (x y : ℝ) : Except Unit Value :=
  if x = 0 ∧ y < 0 then .error ()
  else if x < 0 ∧ ¬(∃ n : ℤ, (n : ℝ) = y) then .error ()
  else .ok (.num (x ^ y))

/-- Binary SAFE_OPERATORS application on values (operator.add and
friends): numeric arithmetic, string concatenation for the plus
operator, division by zero raising, every mixed case a TypeError.
(String repetition by an integer is not modelled; it occurs in no
claim.) -/
noncomputable def applyBin : PyOp → Value → Value → Except Unit Value
  | .add, .num a, .num b => .ok (.num (a + b))
  | .add, .str a, .str b => .ok (.str (a ++ b))
  | .sub, .num a, .num b => .ok (.num (a - b))
  | .mult, .num a, .num b => .ok (.num (a * b))
  | .div, .num a, .num b => if b = 0 then .error () else .ok (.num (a / b))
  | .pow, .num a, .num b => pyPow a b
  | _, _, _ => .error ()

/-- Unary SAFE_OPERATORS application (operator.neg / operator.pos). -/
noncomputable def applyUn : PyUnary → Value → Except Unit Value
  | .usub, .num a => .ok (.num (-a))
  | .uadd, .num a => .ok (.num a)
  | _, _ => .error ()

/-- Extract a numeric argument list, failing on any string (the
whitelisted math functions raise a TypeError on strings; the iterable
behaviour of min/max on a single string is not modelled). -/
def numsOf : List Value → Option (List ℝ)
  | [] => some []
  | .num x :: vs => (numsOf vs).map (x :: ·)
  | .str _ :: _ => none

/-- Application of a whitelisted function to evaluated arguments,
with the host arity and domain errors (sqrt of a negative raises
ValueError; min/max need at least two arguments; `pi` is not
callable). -/
noncomputable def applyFn : String → List Value → Except Unit Value
  | "sin", [.num x] => .ok (.num (Real.sin x))
  | "cos", [.num x] => .ok (.num (Real.cos x))
  | "tan", [.num x] => .ok (.num (Real.tan x))
  | "sqrt", [.num x] => if x < 0 then .error () else .ok (.num (Real.sqrt x))
  | "pow", [.num x, .num y] => pyPow x y
  | "abs", [.num x] => .ok (.num |x|)
  | "round", [.num x] => .ok (.num (roundHalfEven x))
  | "min", vs =>
    match numsOf vs with
    | some (x :: y :: rest) => .ok (.num ((y :: rest).foldl min x))
    | _ => .error ()
  | "max", vs =>
    match numsOf vs with
    | some (x :: y :: rest) => .ok (.num ((y :: rest).foldl max x))
    | _ => .error ()
  | _, _ => .error ()

mutual

/-- `_eval_node` (src/__init__.py lines 37-58).  Constants evaluate to
themselves; a Name is looked up in the context with default 0.0; a
BinOp first looks its operator up in SAFE_OPERATORS and falls through
to the final `return 0.0` (without evaluating the children) when the
operator is not whitelisted — which is the case exactly for the caret
(BitXor) in the fragment; a Call checks its callee name against
SAFE_FUNCTIONS and likewise returns 0.0 without evaluating arguments
when the name is not whitelisted.  Host exceptions are the error
case. -/
noncomputable def evalNode : PyExpr → Ctx → Except Unit Value
  | .const n, _ => .ok (.num (pyNumVal n))
  | .strConst s, _ => .ok (.str s)
  | .name s, ctx => .ok ((ctx s).getD (.num 0))
  | .binop op a b, ctx =>
    match op with
    | .bitxor => .ok (.num 0)
    | .add => do
      let va ← evalNode a ctx
      let vb ← evalNode b ctx
      applyBin .add va vb
    | .sub => do
      let va ← evalNode a ctx
      let vb ← evalNode b ctx
      applyBin .sub va vb
    | .mult => do
      let va ← evalNode a ctx
      let vb ← evalNode b ctx
      applyBin .mult va vb
    | .div => do
      let va ← evalNode a ctx
      let vb ← evalNode b ctx
      applyBin .div va vb
    | .pow => do
      let va ← evalNode a ctx
      let vb ← evalNode b ctx
      applyBin .pow va vb
  | .unaryop op a, ctx => do
    let va ← evalNode a ctx
    applyUn op va
  | .call f args, ctx =>
    if f ∈ SAFE_FUNCTIONS_names then do
      let vs ← evalArgs args ctx
      applyFn f vs
    else .ok (.num 0)

/-- Left-to-right evaluation of call arguments
(`[_eval_node(arg, context) for arg in node.args]`). -/
noncomputable def evalArgs : List PyExpr → Ctx → Except Unit (List Value)
  | [], _ => .ok []
  | a :: as, ctx => do
    let v ← evalNode a ctx
    let vs ← evalArgs as ctx
    .ok (v :: vs)

end

/-- The strip() of the host string type (drop leading and trailing
whitespace), implemented on the character list so that it reduces by
kernel computation. -/
def pyStrip (s : String) : String :=
  String.mk (((s.toList.dropWhile Char.isWhitespace).reverse.dropWhile
    Char.isWhitespace).reverse)

/-- The final `float(...)` conversion of `safe_evaluate_expression`:
numbers pass through, a string raises.  (A string that itself spells
a number would convert in the host; no claim exercises that.) -/
def pyFloat : Value → Except Unit ℝ
  | .num x => .ok x
  | .str _ => .error ()

/-- `safe_evaluate_expression` (src/__init__.py lines 60-70): empty or
blank input yields 0.0; then parse, evaluate, convert to float, and
map any exception to 0.0. -/
noncomputable def safe_evaluate_expression (expression : String) (context : Ctx) : ℝ :=
  if pyStrip expression = "" then 0
  else
    match parseExpr expression with
    | none => 0
    | some e =>
      match (evalNode e context).bind pyFloat with
      | .ok x => x
      | .error _ => 0

mutual

/-- All identifiers occurring in Name nodes of an expression (a
syntactic bound on the context keys evaluation can consult). -/
def varNames : PyExpr → List String
  | .const _ => []
  | .strConst _ => []
  | .name s => [s]
  | .binop _ a b => varNames a ++ varNames b
  | .unaryop _ a => varNames a
  | .call _ args => varNamesList args

/-- Identifiers of a list of expressions. -/
def varNamesList : List PyExpr → List String
  | [] => []
  | a :: as => varNames a ++ varNamesList as

end

/- ===========================================================
   apply_easing  (src/__init__.py lines 158-182)
   =========================================================== -/

/-- `apply_easing` from `src/__init__.py`: clamp the input to [0, 1],
then apply the curve selected by the mode string; an unrecognized mode
falls through to the clamped input (linear).  math.pow with constant
integer exponent is monomial power; math.pow(2, -10*t) is real
exponentiation of the positive base 2. -/
noncomputable def apply_easing (t0 : ℝ) (mode : String) : ℝ :=
  let t : ℝ := if t0 < 0 then 0 else t0
  let t : ℝ := if t > 1 then 1 else t
  if mode = "LINEAR" then t
  else if mode = "QUAD_IN" then t * t
  else if mode = "QUAD_OUT" then 1 - (1 - t) * (1 - t)
  else if mode = "QUAD_INOUT" then
    if t < 0.5 then 2 * t * t else 1 - (-2 * t + 2) ^ (2 : ℕ) / 2
  else if mode = "CUBIC_OUT" then 1 - (1 - t) ^ (3 : ℕ)
  else if mode = "EXPO_OUT" then
    if t = 1 then 1 else 1 - (2 : ℝ) ^ (-10 * t)
  else if mode = "BACK_OUT" then
    let c1 : ℝ := 1.70158
    let c3 : ℝ := c1 + 1
    1 + c3 * (t - 1) ^ (3 : ℕ) + c1 * (t - 1) ^ (2 : ℕ)
  else if mode = "ELASTIC_OUT" then
    if t = 0 then 0
    else if t = 1 then 1
    else
      let c4 : ℝ := 2 * Real.pi / 3
      (2 : ℝ) ^ (-10 * t) * Real.sin ((t * 10 - 0.75) * c4) + 1
  else if mode = "BOUNCE_OUT" then
    let n1 : ℝ := 7.5625
    let d1 : ℝ := 2.75
    if t < 1 / d1 then n1 * t * t
    else if t < 2 / d1 then
      let t := t - 1.5 / d1
      n1 * t * t + 0.75
    else if t < 2.5 / d1 then
      let t := t - 2.25 / d1
      n1 * t * t + 0.9375
    else
      let t := t - 2.625 / d1
      n1 * t * t + 0.984375
  else t

/- ===========================================================
   Data model  (src/__init__.py lines 375-411)
   =========================================================== -/

/-- `MidiTarget` property group (src/__init__.py lines 375-385).  The
diagnostic field current_val_display is display-only and not
modelled. -/
structure MidiTarget where
  data_path : String
  min_value : ℝ
  max_value : ℝ
  drive_mode : String
  expression : String

/-- `MidiMapping` property group (src/__init__.py lines 387-411).
The UI flag show_expanded is not modelled. -/
structure MidiMapping where
  name : String
  midi_cc : ℤ
  use_note : Bool
  target_value : ℝ
  targets : List MidiTarget
  use_absolute : Bool
  smooth_speed : ℝ
  easing_mode : String

/- ===========================================================
   apply_to_blender  (src/__init__.py lines 184-241)
   =========================================================== -/

/-- Step 1 of `apply_to_blender`: the target value before drive-mode
logic — the evaluated expression when the stripped expression text is
non-empty, else absolute scaling, else min/max scaling. -/
noncomputable def apply_to_blender_final_val (target : MidiTarget) (input_val : ℝ)
    (use_absolute_midi : Bool) (ctx : Ctx) : ℝ :=
  if pyStrip target.expression ≠ "" then
    safe_evaluate_expression target.expression ctx
  else if use_absolute_midi then input_val * 127.0
  else target.min_value + input_val * (target.max_value - target.min_value)

/-- Step 3 of `apply_to_blender`: drive-mode logic, producing the
value written to the slot that currently holds `current_val` (the
boolean/integer type adaptation of step 3b applies afterwards and
leaves float slots unchanged). -/
noncomputable def apply_to_blender_new_val (target : MidiTarget) (input_val : ℝ)
    (use_absolute_midi : Bool) (ctx : Ctx) (current_val : ℝ) : ℝ :=
  if target.drive_mode = "ACCUMULATE" then
    current_val + apply_to_blender_final_val target input_val use_absolute_midi ctx
  else apply_to_blender_final_val target input_val use_absolute_midi ctx

/- ===========================================================
   process_midi_events  (src/__init__.py lines 247-325)
   =========================================================== -/

/-- Raw messages delivered by the MIDI transport. -/
inductive MidoMsg where
  | control_change (control value : ℤ)
  | note_on (note velocity : ℤ)
  | note_off (note velocity : ℤ)
  | other

/-- Event normalization of `process_midi_events` (lines 259-268): a
(m_type, m_id, m_val) triple; messages of any other type keep the
initial values ("None", -1, 0). -/
def normalizeMsg : MidoMsg → String × ℤ × ℤ
  | .control_change c v => ("CC", c, v)
  | .note_on n v => ("Note", n, v)
  | .note_off n _ => ("Note", n, 0)
  | .other => ("None", -1, 0)

/-- Per-mapping target update of `process_midi_events` (lines
276-285): a mapping is touched only when its midi_cc equals the event
id; key-mode mappings accept only Note events (target 1.0 when the
value is positive, else 0.0) and knob-mode mappings accept only
non-Note events (target value/127). -/
noncomputable def updateMappingTarget (m : MidiMapping) (mtype : String)
    (mid mval : ℤ) : MidiMapping :=
  if m.midi_cc = mid then
    if m.use_note then
      if mtype = "Note" then
        { m with target_value := if mval > 0 then 1.0 else 0.0 }
      else m
    else
      if mtype ≠ "Note" then
        { m with target_value := (mval : ℝ) / 127.0 }
      else m
  else m

/-- The smoothing step of `process_midi_events` (lines 294-304): snap
when within 0.001 of the target, else move by speed*0.2 (or 1.0 when
the speed is not below 1.0) toward the target, clamped at the
target. -/
noncomputable def smoothNext (current target speed : ℝ) : ℝ :=
  if |current - target| < 0.001 then target
  else
    let step : ℝ := if speed < 1.0 then speed * 0.2 else 1.0
    if current < target then min (current + step) target
    else max (current - step) target

/-- Whether `small` occurs as a contiguous substring at the head of
`big`. -/
def leadsWith : List Char → List Char → Bool
  | [], _ => true
  | _ :: _, [] => false
  | a :: as, b :: bs => a == b && leadsWith as bs

/-- Whether `pat` occurs as a contiguous substring anywhere in the
second list. -/
def occursIn (pat : List Char) : List Char → Bool
  | [] => leadsWith pat []
  | b :: bs => leadsWith pat (b :: bs) || occursIn pat bs

/-- The `in` substring test of the host on strings. -/
def strContains (s pat : String) : Bool :=
  occursIn pat.toList s.toList

/-- The is_continuous test of `process_midi_events` (line 308): some
target uses the ACCUMULATE drive mode, or its expression text contains
"time" or "frame" as a substring. -/
def isContinuous (targets : List MidiTarget) : Bool :=
  targets.any (fun t =>
    t.drive_mode == "ACCUMULATE" || strContains t.expression "time" ||
      strContains t.expression "frame")

/-- The write-skip branch condition of `process_midi_events`
(line 310): with `prev` the stored animation state for the mapping and
`current` its new smoothed value, output is applied exactly when
|current - prev| > 0.00001, or the mapping is continuous AND
|current| > 0.001. -/
def writeCondition (prev : ℝ) (m : MidiMapping) : Prop :=
  let current := smoothNext prev m.target_value m.smooth_speed
  |current - prev| > 0.00001 ∨
    (isContinuous m.targets = true ∧ |current| > 0.001)

/-- The claim's notion of a continuously active mapping: some Target
uses the Accumulate drive mode or its expression text references
time or frame.  (Stated as a proposition over the target list, for
comparison with the boolean scan `isContinuous` of the source.) -/
def ContinuouslyActive (m : MidiMapping) : Prop :=
  ∃ t ∈ m.targets, t.drive_mode = "ACCUMULATE" ∨
    strContains t.expression "time" = true ∨
    strContains t.expression "frame" = true

/-- The smoothed value sequence produced by ticking one mapping with a
fixed target and speed, starting from `c0` (the per-tick smoothing
loop of `process_midi_events`, lines 294-304, iterated). -/
noncomputable def curSeq (speed target c0 : ℝ) : ℕ → ℝ
  | 0 => c0
  | n + 1 => smoothNext (curSeq speed target c0 n) target speed

/-- A mapping at rest at 0 with a single Accumulate target (the
continuous-mode class of the claims). -/
noncomputable def restMotorMapping : MidiMapping :=
  ⟨"Motor", 0, false, 0, [⟨"p", 0, 1, "ACCUMULATE", ""⟩], false, 0.1, "LINEAR"⟩

/-- A Settling-free motor mapping whose commanded target is 1/2 (a
continuous mapping at rest away from zero). -/
noncomputable def activeMotorMapping : MidiMapping :=
  ⟨"Motor2", 0, false, 0.5, [⟨"p", 0, 1, "ACCUMULATE", ""⟩], false, 0.1,
    "LINEAR"⟩

/-- A knob-mode mapping listening on id 5. -/
noncomputable def knobMapping : MidiMapping :=
  ⟨"Knob", 5, false, 0, [], false, 0.1, "LINEAR"⟩

/-- A key-mode mapping listening on id 5. -/
noncomputable def keyMapping : MidiMapping :=
  ⟨"Key", 5, true, 0, [], false, 0.1, "LINEAR"⟩

/- ===========================================================
   MIDI_OT_ImportJSON.execute  (src/__init__.py lines 612-635)
   =========================================================== -/

/-- JSON values as produced by the host JSON parser. -/
inductive Json where
  | null
  | bool (b : Bool)
  | num (q : ℚ)
  | str (s : String)
  | arr (xs : List Json)
  | obj (kvs : List (String × Json))

/-- Dictionary get on a parsed JSON object (keys assumed unique, as
produced from a file). -/
def jget : List (String × Json) → String → Option Json
  | [], _ => none
  | (k, v) :: rest, key => if k = key then some v else jget rest key

/-- A freshly added target, with the property defaults of MidiTarget
(src/__init__.py lines 375-385). -/
noncomputable def defaultTarget : MidiTarget :=
  ⟨"", 0, 1, "SET", ""⟩

/-- A freshly added mapping, with the property defaults of MidiMapping
(src/__init__.py lines 387-411). -/
noncomputable def defaultMapping : MidiMapping :=
  ⟨"Mapping", 0, false, 0, [], false, 0.1, "LINEAR"⟩

/-- The easing enum items (src/__init__.py lines 397-411); assigning
any other string to the enum property raises. -/
def easingModes : List String :=
  ["LINEAR", "QUAD_IN", "QUAD_OUT", "QUAD_INOUT", "CUBIC_OUT", "EXPO_OUT",
    "BACK_OUT", "ELASTIC_OUT", "BOUNCE_OUT"]

/-- The drive-mode enum items (src/__init__.py lines 380-384). -/
def driveModes : List String := ["SET", "ACCUMULATE"]

/-- Outcome of the import operator: FINISHED, CANCELLED, or an
uncaught host exception. -/
inductive ImpOutcome where
  | finished | cancelled | raised
  deriving DecidableEq

/-- nm.name = entry.get("name", "Import"): a missing key uses the
default, a string is assigned, any other JSON value raises on
assignment to the string property. -/
noncomputable def impSetName (m : MidiMapping) : Option Json →
    Except MidiMapping MidiMapping
  | none => .ok { m with name := "Import" }
  | some (.str s) => .ok { m with name := s }
  | some _ => .error m

/-- nm.midi_cc = entry.get("cc", 0): integers are clamped to the
property range 0-127; non-integers raise. -/
noncomputable def impSetCc (m : MidiMapping) : Option Json →
    Except MidiMapping MidiMapping
  | none => .ok { m with midi_cc := 0 }
  | some (.num q) =>
    if q.den = 1 then .ok { m with midi_cc := max 0 (min 127 q.num) }
    else .error m
  | some _ => .error m

/-- nm.use_note = entry.get("note", False). -/
noncomputable def impSetNote (m : MidiMapping) : Option Json →
    Except MidiMapping MidiMapping
  | none => .ok { m with use_note := false }
  | some (.bool b) => .ok { m with use_note := b }
  | some _ => .error m

/-- nm.use_absolute = entry.get("abs", False). -/
noncomputable def impSetAbs (m : MidiMapping) : Option Json →
    Except MidiMapping MidiMapping
  | none => .ok { m with use_absolute := false }
  | some (.bool b) => .ok { m with use_absolute := b }
  | some _ => .error m

/-- nm.smooth_speed = entry.get("speed", 0.1): numbers are clamped to
the property range 0.01-1.0. -/
noncomputable def impSetSpeed (m : MidiMapping) : Option Json →
    Except MidiMapping MidiMapping
  | none => .ok { m with smooth_speed := 0.1 }
  | some (.num q) =>
    .ok { m with smooth_speed := max 0.01 (min 1.0 (q : ℝ)) }
  | some _ => .error m

/-- nm.easing_mode = entry.get("curve", "LINEAR"): only enum items are
accepted. -/
noncomputable def impSetCurve (m : MidiMapping) : Option Json →
    Except MidiMapping MidiMapping
  | none => .ok { m with easing_mode := "LINEAR" }
  | some (.str s) =>
    if s ∈ easingModes then .ok { m with easing_mode := s } else .error m
  | some _ => .error m

/-- nt.data_path = t_data.get("path", ""). -/
noncomputable def impTPath (t : MidiTarget) : Option Json →
    Except MidiTarget MidiTarget
  | none => .ok { t with data_path := "" }
  | some (.str s) => .ok { t with data_path := s }
  | some _ => .error t

/-- nt.min_value = t_data.get("min", 0.0). -/
noncomputable def impTMin (t : MidiTarget) : Option Json →
    Except MidiTarget MidiTarget
  | none => .ok { t with min_value := 0 }
  | some (.num q) => .ok { t with min_value := (q : ℝ) }
  | some _ => .error t

/-- nt.max_value = t_data.get("max", 1.0). -/
noncomputable def impTMax (t : MidiTarget) : Option Json →
    Except MidiTarget MidiTarget
  | none => .ok { t with max_value := 1 }
  | some (.num q) => .ok { t with max_value := (q : ℝ) }
  | some _ => .error t

/-- nt.drive_mode = t_data.get("mode", "SET"): only enum items are
accepted. -/
noncomputable def impTMode (t : MidiTarget) : Option Json →
    Except MidiTarget MidiTarget
  | none => .ok { t with drive_mode := "SET" }
  | some (.str s) =>
    if s ∈ driveModes then .ok { t with drive_mode := s } else .error t
  | some _ => .error t

/-- nt.expression = t_data.get("expr", ""). -/
noncomputable def impTExpr (t : MidiTarget) : Option Json →
    Except MidiTarget MidiTarget
  | none => .ok { t with expression := "" }
  | some (.str s) => .ok { t with expression := s }
  | some _ => .error t

/-- Populate one freshly added target from a JSON object, field by
field in source order; an error carries the partially populated
target, which has already been added. -/
noncomputable def targetFromObj (kvs : List (String × Json)) :
    Except MidiTarget MidiTarget := do
  let t ← impTPath defaultTarget (jget kvs "path")
  let t ← impTMin t (jget kvs "min")
  let t ← impTMax t (jget kvs "max")
  let t ← impTMode t (jget kvs "mode")
  impTExpr t (jget kvs "expr")

/-- The per-entry targets loop: each iteration first adds a default
target, then populates it; a non-object element raises right after
the add. -/
noncomputable def impTargetsLoop (m : MidiMapping) :
    List Json → Except MidiMapping MidiMapping
  | [] => .ok m
  | .obj kvs :: rest =>
    match targetFromObj kvs with
    | .ok t => impTargetsLoop { m with targets := m.targets ++ [t] } rest
    | .error t => .error { m with targets := m.targets ++ [t] }
  | _ :: _ => .error { m with targets := m.targets ++ [defaultTarget] }

/-- for t_data in entry.get("targets", []): a missing key iterates the
empty default; iterating a non-array value raises (the host would
iterate strings and dict keys, which also raises inside the body on
the element's .get; both are modelled as the raise). -/
noncomputable def impTargets (m : MidiMapping) : Option Json →
    Except MidiMapping MidiMapping
  | none => .ok m
  | some (.arr ts) => impTargetsLoop m ts
  | some _ => .error m

/-- Populate one freshly added mapping from a JSON object, field by
field in source order (lines 621-634); an error carries the partially
populated mapping, which has already been added to the scene. -/
noncomputable def mappingFromObj (kvs : List (String × Json)) :
    Except MidiMapping MidiMapping := do
  let m ← impSetName defaultMapping (jget kvs "name")
  let m ← impSetCc m (jget kvs "cc")
  let m ← impSetNote m (jget kvs "note")
  let m ← impSetAbs m (jget kvs "abs")
  let m ← impSetSpeed m (jget kvs "speed")
  let m ← impSetCurve m (jget kvs "curve")
  impTargets m (jget kvs "targets")

/-- The entry loop of the import (lines 620-634): each iteration
first executes scene.midi_mappings.add() — committing a default
mapping — and then populates it; entry.get on a non-object entry
raises with the default mapping already committed. -/
noncomputable def importLoop : List Json → List MidiMapping →
    List MidiMapping × ImpOutcome
  | [], scene => (scene, .finished)
  | .obj kvs :: rest, scene =>
    match mappingFromObj kvs with
    | .ok m => importLoop rest (scene ++ [m])
    | .error m => (scene ++ [m], .raised)
  | _ :: _, scene => (scene ++ [defaultMapping], .raised)

/-- `MIDI_OT_ImportJSON.execute` (lines 616-635): only reading and
JSON-parsing the file is guarded (a failure returns CANCELLED with the
scene untouched); the population loop itself is unguarded, so failures
inside it leave every mapping added so far in the scene.  The input is
the parse result: `none` for an unreadable or syntactically invalid
file, `some entries` for a file holding a JSON array.  (A top-level
non-array JSON value makes the for loop iterate scalars, strings or
dict keys, all of which also end in an uncaught exception; those
shapes are not modelled.) -/
noncomputable def importMappings : Option (List Json) → List MidiMapping →
    List MidiMapping × ImpOutcome
  | none, scene => (scene, .cancelled)
  | some entries, scene => importLoop entries scene

/- ===========================================================
   Concrete contexts and inputs used by the theorems below
   =========================================================== -/

/-- The empty variable context (the Python literal {}). -/
def emptyCtx : Ctx := fun _ => none

noncomputable def xIs4Ctx : Ctx := fun s => if s = "x" then some (.num 4) else none

noncomputable def xIs4WideCtx : Ctx :=
  fun s => if s = "x" then some (.num 4) else some (.num 5)

noncomputable def piOnlyCtx : Ctx :=
  fun s => if s = "pi" then some (.num Real.pi) else none

def maliciousExpr : String := "__import__(" ++ dq ++ "os" ++ dq ++ ")"

/-- A graph path with a delimiter dot inside a quoted key inside
brackets. -/
def quotedPath : String :=
  "bpy.data.objects[" ++ dq ++ "my.cube" ++ dq ++ "].location[0]"

/- ===========================================================
   THEOREMS
   =========================================================== -/

/-- The real value of an integer literal. -/
theorem pyNumVal_int (m : ℕ) : pyNumVal ⟨m, 0, 0⟩ = m := by
  simp [pyNumVal]

/-- Size-bounded noninterference: evaluation of an expression (or an
argument list) gives equal results under two contexts that agree on
every identifier occurring in it — the evaluator consults no other
host state. -/
theorem evalNode_congr_aux :
    ∀ n : ℕ,
      (∀ e : PyExpr, sizeOf e ≤ n → ∀ c1 c2 : Ctx,
        (∀ s ∈ varNames e, c1 s = c2 s) → evalNode e c1 = evalNode e c2) ∧
      (∀ l : List PyExpr, sizeOf l ≤ n → ∀ c1 c2 : Ctx,
        (∀ s ∈ varNamesList l, c1 s = c2 s) → evalArgs l c1 = evalArgs l c2) := by
  intro n
  induction n using Nat.strong_induction_on with
  | _ n ih =>
    constructor
    · intro e he c1 c2 hagree
      cases e with
      | const q => simp [evalNode]
      | strConst s => simp [evalNode]
      | name s =>
        have hx : c1 s = c2 s := hagree s (by simp [varNames])
        simp [evalNode, hx]
      | binop op a b =>
        have hsa : sizeOf a < n := by
          have : sizeOf a < sizeOf (PyExpr.binop op a b) := by
            simp only [PyExpr.binop.sizeOf_spec]; omega
          omega
        have hsb : sizeOf b < n := by
          have : sizeOf b < sizeOf (PyExpr.binop op a b) := by
            simp only [PyExpr.binop.sizeOf_spec]; omega
          omega
        have hea : evalNode a c1 = evalNode a c2 :=
          (ih (sizeOf a) hsa).1 a le_rfl c1 c2
            (fun s hs => hagree s (by simp [varNames]; exact Or.inl hs))
        have heb : evalNode b c1 = evalNode b c2 :=
          (ih (sizeOf b) hsb).1 b le_rfl c1 c2
            (fun s hs => hagree s (by simp [varNames]; exact Or.inr hs))
        cases op <;> simp [evalNode, hea, heb]
      | unaryop op a =>
        have hsa : sizeOf a < n := by
          have : sizeOf a < sizeOf (PyExpr.unaryop op a) := by
            simp only [PyExpr.unaryop.sizeOf_spec]; omega
          omega
        have hea : evalNode a c1 = evalNode a c2 :=
          (ih (sizeOf a) hsa).1 a le_rfl c1 c2
            (fun s hs => hagree s (by simpa [varNames] using hs))
        simp [evalNode, hea]
      | call f args =>
        have hsl : sizeOf args < n := by
          have : sizeOf args < sizeOf (PyExpr.call f args) := by
            simp only [PyExpr.call.sizeOf_spec]; omega
          omega
        have hel : evalArgs args c1 = evalArgs args c2 :=
          (ih (sizeOf args) hsl).2 args le_rfl c1 c2
            (fun s hs => hagree s (by simpa [varNames] using hs))
        by_cases hf : f ∈ SAFE_FUNCTIONS_names <;> simp [evalNode, hf, hel]
    · intro l hl c1 c2 hagree
      cases l with
      | nil => simp [evalArgs]
      | cons a as =>
        have hsa : sizeOf a < n := by
          have : sizeOf a < sizeOf (a :: as) := by
            simp only [List.cons.sizeOf_spec]; omega
          omega
        have hss : sizeOf as < n := by
          have : sizeOf as < sizeOf (a :: as) := by
            simp only [List.cons.sizeOf_spec]; omega
          omega
        have hea : evalNode a c1 = evalNode a c2 :=
          (ih (sizeOf a) hsa).1 a le_rfl c1 c2
            (fun s hs => hagree s (by simp [varNamesList]; exact Or.inl hs))
        have hes : evalArgs as c1 = evalArgs as c2 :=
          (ih (sizeOf as) hss).2 as le_rfl c1 c2
            (fun s hs => hagree s (by simp [varNamesList]; exact Or.inr hs))
        simp [evalArgs, hea, hes]

/-- C1: the evaluator is an explicit parse over a syntax tree (the
definitions `tokenize`, `parseExpr`, `evalNode` compose to
`safe_evaluate_expression`); the malicious string __import__(\"os\")
evaluates to 0.0 under every variable context; a call whose name is
outside the fixed SAFE_FUNCTIONS allow-list yields 0.0 without its
arguments being evaluated; and evaluation results depend only on the
supplied variable set (contexts agreeing on the identifiers of the
expression give equal results), so no identifier outside the
allow-list and variable set is ever resolved and no host side effect
is possible. -/
theorem C1_sandboxed_evaluator :
    (∀ ctx : Ctx, safe_evaluate_expression maliciousExpr ctx = 0) ∧
    (∀ (f : String) (args : List PyExpr) (ctx : Ctx),
      f ∉ SAFE_FUNCTIONS_names → evalNode (.call f args) ctx = .ok (.num 0)) ∧
    (∀ (e : PyExpr) (c1 c2 : Ctx), (∀ s ∈ varNames e, c1 s = c2 s) →
      evalNode e c1 = evalNode e c2) := by
  refine ⟨?_, ?_, ?_⟩
  · intro ctx
    have hp : parseExpr maliciousExpr =
        some (.call "__import__" [.strConst "os"]) := rfl
    rw [safe_evaluate_expression, if_neg (by decide), hp]
    simp [evalNode, SAFE_FUNCTIONS_names, bind, Except.bind, pyFloat]
  · intro f args ctx hf
    simp [evalNode, hf]
  · intro e c1 c2 h
    exact (evalNode_congr_aux (sizeOf e)).1 e le_rfl c1 c2 h

/-- Witness for C1 at concrete inputs. -/
theorem C1_sandboxed_evaluator_witness :
    safe_evaluate_expression maliciousExpr emptyCtx = 0 ∧
    evalNode (.call "badcall" [] : PyExpr) emptyCtx = .ok (.num 0) ∧
    evalNode (.name "x") xIs4Ctx = evalNode (.name "x") xIs4WideCtx := by
  refine ⟨C1_sandboxed_evaluator.1 emptyCtx,
    C1_sandboxed_evaluator.2.1 "badcall" [] emptyCtx (by decide),
    C1_sandboxed_evaluator.2.2 (.name "x") xIs4Ctx xIs4WideCtx ?_⟩
  intro s hs
  have hsx : s = "x" := by simpa [varNames] using hs
  subst hsx
  simp [xIs4Ctx, xIs4WideCtx]

/-- C6: evaluate is total — every result is a real number, and is
either 0.0 (blank input, parse error, or any evaluation error, caught
at the top level) or the float of a successful evaluation; an
identifier unbound in the context evaluates to 0.0 rather than
raising; division by zero (1/0) and a domain error (sqrt(-1)) both
return 0.0. -/
theorem C6_never_throws_errors_yield_zero :
    (∀ (ctx : Ctx) (s : String), ctx s = none →
      evalNode (.name s) ctx = .ok (.num 0)) ∧
    (∀ (src : String) (ctx : Ctx),
      safe_evaluate_expression src ctx = 0 ∨
      ∃ e v, parseExpr src = some e ∧ evalNode e ctx = .ok v ∧
        pyFloat v = .ok (safe_evaluate_expression src ctx)) ∧
    (∀ ctx : Ctx, safe_evaluate_expression "1/0" ctx = 0) ∧
    (∀ ctx : Ctx, safe_evaluate_expression "sqrt(-1)" ctx = 0) := by
  refine ⟨?_, ?_, ?_, ?_⟩
  · intro ctx s h
    simp [evalNode, h]
  · intro src ctx
    by_cases hb : pyStrip src = ""
    · left; rw [safe_evaluate_expression, if_pos hb]
    · cases hp : parseExpr src with
      | none => left; rw [safe_evaluate_expression, if_neg hb, hp]
      | some e =>
        cases hev : evalNode e ctx with
        | error u =>
          left
          rw [safe_evaluate_expression, if_neg hb, hp]
          simp [hev, bind, Except.bind]
        | ok v =>
          cases hfv : pyFloat v with
          | error u =>
            left
            rw [safe_evaluate_expression, if_neg hb, hp]
            simp [hev, hfv, bind, Except.bind]
          | ok x =>
            right
            refine ⟨e, v, rfl, hev, ?_⟩
            rw [safe_evaluate_expression, if_neg hb, hp]
            simp [hev, hfv, bind, Except.bind]
  · intro ctx
    have hp : parseExpr "1/0" =
        some (.binop .div (.const ⟨1, 0, 0⟩) (.const ⟨0, 0, 0⟩)) := rfl
    rw [safe_evaluate_expression, if_neg (by decide), hp]
    simp only [evalNode, evalArgs, bind, Except.bind, applyBin, pyFloat,
      pyNumVal_int, reduceIte]
    norm_num
  · intro ctx
    have hp : parseExpr "sqrt(-1)" =
        some (.call "sqrt" [.unaryop .usub (.const ⟨1, 0, 0⟩)]) := rfl
    rw [safe_evaluate_expression, if_neg (by decide), hp]
    simp only [evalNode, evalArgs, bind, Except.bind, applyUn, applyFn, pyFloat,
      pyNumVal_int, SAFE_FUNCTIONS_names, reduceIte, Option.getD]
    norm_num

/-- Witness for C6 at concrete inputs. -/
theorem C6_never_throws_witness :
    evalNode (.name "unbound") emptyCtx = .ok (.num 0) ∧
    (safe_evaluate_expression "2**3" emptyCtx = 0 ∨
      ∃ e v, parseExpr "2**3" = some e ∧ evalNode e emptyCtx = .ok v ∧
        pyFloat v = .ok (safe_evaluate_expression "2**3" emptyCtx)) ∧
    safe_evaluate_expression "1/0" emptyCtx = 0 ∧
    safe_evaluate_expression "sqrt(-1)" emptyCtx = 0 :=
  ⟨C6_never_throws_errors_yield_zero.1 emptyCtx "unbound" rfl,
    C6_never_throws_errors_yield_zero.2.1 "2**3" emptyCtx,
    C6_never_throws_errors_yield_zero.2.2.1 emptyCtx,
    C6_never_throws_errors_yield_zero.2.2.2 emptyCtx⟩

/-- C4 counterexample: with the empty context the claimed
evaluate(\"sin(pi/2)\", {}) is 0.0 (pi is resolved from the context,
not built in), and \"2^3\" evaluates to 0.0, not the power 8 (the
caret is BitXor, which SAFE_OPERATORS does not contain). -/
theorem C4_grammar_counterexample :
    safe_evaluate_expression "sin(pi/2)" emptyCtx = 0 ∧
    safe_evaluate_expression "2^3" emptyCtx = 0 ∧
    (0 : ℝ) ≠ 1 ∧ (0 : ℝ) ≠ 2 ^ 3 := by
  refine ⟨?_, ?_, by norm_num, by norm_num⟩
  · have hp : parseExpr "sin(pi/2)" =
        some (.call "sin" [.binop .div (.name "pi") (.const ⟨2, 0, 0⟩)]) := rfl
    rw [safe_evaluate_expression, if_neg (by decide), hp]
    simp only [evalNode, evalArgs, bind, Except.bind, applyBin, applyFn, pyFloat,
      pyNumVal_int, emptyCtx, SAFE_FUNCTIONS_names, reduceIte, Option.getD]
    norm_num [Real.sin_zero]
  · have hp : parseExpr "2^3" =
        some (.binop .bitxor (.const ⟨2, 0, 0⟩) (.const ⟨3, 0, 0⟩)) := rfl
    rw [safe_evaluate_expression, if_neg (by decide), hp]
    simp only [evalNode, bind, Except.bind, pyFloat]

/-- C4 (amended): the evaluator implements numeric literals,
identifiers from the context, binary + - * / and ** (the power
operator; the caret yields 0.0), unary + -, and the allow-listed
function calls with standard meaning and precedence;
evaluate(\"2 + 3 * x\") is 14.0 whenever the context binds x to 4.0,
and evaluate(\"sin(pi/2)\") is exactly 1 whenever the context binds
pi to math.pi. -/
theorem C4_grammar_amended :
    (∀ ctx : Ctx, ctx "x" = some (.num 4) →
      safe_evaluate_expression "2 + 3 * x" ctx = 14) ∧
    (∀ ctx : Ctx, ctx "pi" = some (.num Real.pi) →
      safe_evaluate_expression "sin(pi/2)" ctx = 1) ∧
    (∀ ctx : Ctx, safe_evaluate_expression "2**3" ctx = 8) ∧
    (∀ ctx : Ctx, safe_evaluate_expression "2^3" ctx = 0) ∧
    (∀ ctx : Ctx, safe_evaluate_expression "2 - 6 / 4" ctx = 1 / 2) ∧
    (∀ ctx : Ctx, safe_evaluate_expression "-(3) + +2" ctx = -1) ∧
    (∀ ctx : Ctx, safe_evaluate_expression "pow(2, 10)" ctx = 1024) ∧
    (∀ ctx : Ctx, safe_evaluate_expression "max(2, 7) * min(3, 5)" ctx = 21) := by
  refine ⟨?_, ?_, ?_, ?_, ?_, ?_, ?_, ?_⟩
  · intro ctx hx
    have hp : parseExpr "2 + 3 * x" =
        some (.binop .add (.const ⟨2, 0, 0⟩)
          (.binop .mult (.const ⟨3, 0, 0⟩) (.name "x"))) := rfl
    rw [safe_evaluate_expression, if_neg (by decide), hp]
    simp only [evalNode, evalArgs, bind, Except.bind, applyBin, applyFn, pyFloat,
      pyNumVal_int, hx, SAFE_FUNCTIONS_names, reduceIte, Option.getD]
    norm_num
  · intro ctx hx
    have hp : parseExpr "sin(pi/2)" =
        some (.call "sin" [.binop .div (.name "pi") (.const ⟨2, 0, 0⟩)]) := rfl
    rw [safe_evaluate_expression, if_neg (by decide), hp]
    simp only [evalNode, evalArgs, bind, Except.bind, applyBin, applyFn, pyFloat,
      pyNumVal_int, hx, SAFE_FUNCTIONS_names, reduceIte, Option.getD]
    norm_num [Real.sin_pi_div_two]
  · intro ctx
    have hp : parseExpr "2**3" =
        some (.binop .pow (.const ⟨2, 0, 0⟩) (.const ⟨3, 0, 0⟩)) := rfl
    rw [safe_evaluate_expression, if_neg (by decide), hp]
    simp only [evalNode, evalArgs, bind, Except.bind, applyBin, pyPow, pyFloat,
      pyNumVal_int, reduceIte]
    norm_num
  · intro ctx
    have hp : parseExpr "2^3" =
        some (.binop .bitxor (.const ⟨2, 0, 0⟩) (.const ⟨3, 0, 0⟩)) := rfl
    rw [safe_evaluate_expression, if_neg (by decide), hp]
    simp only [evalNode, bind, Except.bind, pyFloat]
  · intro ctx
    have hp : parseExpr "2 - 6 / 4" =
        some (.binop .sub (.const ⟨2, 0, 0⟩)
          (.binop .div (.const ⟨6, 0, 0⟩) (.const ⟨4, 0, 0⟩))) := rfl
    rw [safe_evaluate_expression, if_neg (by decide), hp]
    simp only [evalNode, evalArgs, bind, Except.bind, applyBin, pyFloat,
      pyNumVal_int, reduceIte]
    norm_num
  · intro ctx
    have hp : parseExpr "-(3) + +2" =
        some (.binop .add (.unaryop .usub (.const ⟨3, 0, 0⟩))
          (.unaryop .uadd (.const ⟨2, 0, 0⟩))) := rfl
    rw [safe_evaluate_expression, if_neg (by decide), hp]
    simp only [evalNode, evalArgs, bind, Except.bind, applyBin, applyUn, pyFloat,
      pyNumVal_int, reduceIte]
    norm_num
  · intro ctx
    have hp : parseExpr "pow(2, 10)" =
        some (.call "pow" [.const ⟨2, 0, 0⟩, .const ⟨10, 0, 0⟩]) := rfl
    rw [safe_evaluate_expression, if_neg (by decide), hp]
    simp only [evalNode, evalArgs, bind, Except.bind, applyFn, pyPow, pyFloat,
      pyNumVal_int, SAFE_FUNCTIONS_names, reduceIte]
    norm_num
  · intro ctx
    have hp : parseExpr "max(2, 7) * min(3, 5)" =
        some (.binop .mult
          (.call "max" [.const ⟨2, 0, 0⟩, .const ⟨7, 0, 0⟩])
          (.call "min" [.const ⟨3, 0, 0⟩, .const ⟨5, 0, 0⟩])) := rfl
    rw [safe_evaluate_expression, if_neg (by decide), hp]
    simp only [evalNode, evalArgs, bind, Except.bind, applyBin, applyFn, numsOf,
      pyFloat, pyNumVal_int, SAFE_FUNCTIONS_names, reduceIte, Option.map]
    norm_num

/-- Witness for the amended C4 at concrete contexts. -/
theorem C4_grammar_amended_witness :
    safe_evaluate_expression "2 + 3 * x" xIs4Ctx = 14 ∧
    safe_evaluate_expression "sin(pi/2)" piOnlyCtx = 1 :=
  ⟨C4_grammar_amended.1 xIs4Ctx rfl, C4_grammar_amended.2.1 piOnlyCtx rfl⟩

/-- C2 counterexample: for an Accumulate target with no expression
(min 0, max 1) at curved input 0 and graph value 5, the code writes
5 + raw = 5, while the claim's centered formula demands
5 + (0 - (1+0)/2) * 0.1 = 4.95: the (raw - midpoint) * 0.1 delta does
not exist in this code. -/
theorem C2_accumulate_counterexample :
    apply_to_blender_new_val ⟨"p", 0, 1, "ACCUMULATE", ""⟩ 0 false emptyCtx 5 = 5 ∧
    (5 : ℝ) ≠ 5 + (0 - (1 + 0) / 2) * 0.1 := by
  constructor
  · simp [apply_to_blender_new_val, apply_to_blender_final_val,
      show pyStrip "" = "" from rfl]
  · norm_num

/-- C2 (amended): for every Accumulate target the value written is
currentGraphValue + delta where delta is the raw output itself in all
three cases of the priority order — the evaluated expression when the
stripped expression is non-empty, x*127 in absolute mode, else
min + x*(max-min); no midpoint centering and no 0.1 scaling is
applied. -/
theorem C2_accumulate_amended :
    (∀ (t : MidiTarget) (x : ℝ) (useAbs : Bool) (ctx : Ctx) (cur : ℝ),
      t.drive_mode = "ACCUMULATE" → pyStrip t.expression ≠ "" →
      apply_to_blender_new_val t x useAbs ctx cur =
        cur + safe_evaluate_expression t.expression ctx) ∧
    (∀ (t : MidiTarget) (x : ℝ) (ctx : Ctx) (cur : ℝ),
      t.drive_mode = "ACCUMULATE" → pyStrip t.expression = "" →
      apply_to_blender_new_val t x true ctx cur = cur + x * 127.0) ∧
    (∀ (t : MidiTarget) (x : ℝ) (ctx : Ctx) (cur : ℝ),
      t.drive_mode = "ACCUMULATE" → pyStrip t.expression = "" →
      apply_to_blender_new_val t x false ctx cur =
        cur + (t.min_value + x * (t.max_value - t.min_value))) := by
  refine ⟨?_, ?_, ?_⟩
  · intro t x useAbs ctx cur hd he
    simp [apply_to_blender_new_val, apply_to_blender_final_val, hd, he]
  · intro t x ctx cur hd he
    simp [apply_to_blender_new_val, apply_to_blender_final_val, hd, he]
  · intro t x ctx cur hd he
    simp [apply_to_blender_new_val, apply_to_blender_final_val, hd, he]

/-- Witness for the amended C2 at concrete inputs. -/
theorem C2_accumulate_amended_witness :
    apply_to_blender_new_val ⟨"p", 0, 1, "ACCUMULATE", "7"⟩ 0 false emptyCtx 5 =
      5 + safe_evaluate_expression "7" emptyCtx ∧
    apply_to_blender_new_val ⟨"p", 0, 1, "ACCUMULATE", ""⟩ 0 false emptyCtx 5 =
      5 + (0 + 0 * (1 - 0)) :=
  ⟨C2_accumulate_amended.1 ⟨"p", 0, 1, "ACCUMULATE", "7"⟩ 0 false emptyCtx 5 rfl
      (by decide),
    C2_accumulate_amended.2.2 ⟨"p", 0, 1, "ACCUMULATE", ""⟩ 0 emptyCtx 5 rfl rfl⟩

/-- C10: there are inputs in [0, 1] where the BACK_OUT easing (and
also ELASTIC_OUT) returns strictly more than 1, and feeding such a
curved value through min/max scaling writes a value exceeding the
configured maxValue. -/
theorem C10_easing_exceeds_one :
    (∃ t : ℝ, 0 ≤ t ∧ t ≤ 1 ∧ 1 < apply_easing t "BACK_OUT") ∧
    (∃ t : ℝ, 0 ≤ t ∧ t ≤ 1 ∧ 1 < apply_easing t "ELASTIC_OUT") ∧
    (∃ (t : ℝ) (tgt : MidiTarget) (ctx : Ctx),
      0 ≤ t ∧ t ≤ 1 ∧ pyStrip tgt.expression = "" ∧
      tgt.min_value < tgt.max_value ∧
      tgt.max_value <
        apply_to_blender_new_val tgt (apply_easing t "BACK_OUT") false ctx 0) := by
  have hback : (1 : ℝ) < apply_easing (4 / 5) "BACK_OUT" := by
    simp only [apply_easing, String.reduceEq, reduceIte]
    norm_num
  have helastic : (1 : ℝ) < apply_easing (3 / 20) "ELASTIC_OUT" := by
    have hsin : Real.sin (2 * Real.pi / 4) = 1 := by
      rw [show 2 * Real.pi / 4 = Real.pi / 2 by ring, Real.sin_pi_div_two]
    have hpos : (0 : ℝ) < (2 : ℝ) ^ (-(3 / 2) : ℝ) :=
      Real.rpow_pos_of_pos (by norm_num) _
    simp only [apply_easing, String.reduceEq, reduceIte]
    norm_num [hsin]
    linarith [hpos]
  refine ⟨⟨4 / 5, by norm_num, by norm_num, hback⟩,
    ⟨3 / 20, by norm_num, by norm_num, helastic⟩,
    ⟨4 / 5, ⟨"p", 0, 1, "SET", ""⟩, emptyCtx, by norm_num, by norm_num, rfl,
      by norm_num, ?_⟩⟩
  simp only [apply_to_blender_new_val, apply_to_blender_final_val,
    show pyStrip "" = "" from rfl, String.reduceEq, reduceIte]
  norm_num
  linarith [hback]

/-- Ticking a mapping whose current value equals its target leaves it
unchanged (the snap branch). -/
theorem smoothNext_self (t s : ℝ) : smoothNext t t s = t := by
  simp [smoothNext, sub_self, abs_zero]
  norm_num

/-- The boolean target scan of the source agrees with the claim's
notion of a continuously active mapping. -/
theorem isContinuous_iff (m : MidiMapping) :
    isContinuous m.targets = true ↔ ContinuouslyActive m := by
  simp [isContinuous, ContinuouslyActive, List.any_eq_true, Bool.or_eq_true,
    beq_iff_eq, or_assoc]

/-- C3 counterexample: a mapping with an Accumulate target, at rest
with current = target = 0, is continuously active, yet the write
condition of the source is false (because the continuous arm also
requires |current| > 0.001), so no output is re-applied — refuting
the claim that continuously active mappings re-apply on every tick
even at rest. -/
theorem C3_write_skip_counterexample :
    ContinuouslyActive restMotorMapping ∧
    smoothNext 0 restMotorMapping.target_value restMotorMapping.smooth_speed =
      restMotorMapping.target_value ∧
    ¬ writeCondition 0 restMotorMapping := by
  have hc : isContinuous restMotorMapping.targets = true := by decide
  refine ⟨?_, ?_, ?_⟩
  · exact ⟨⟨"p", 0, 1, "ACCUMULATE", ""⟩, by simp [restMotorMapping],
      Or.inl rfl⟩
  · simp only [restMotorMapping]
    simp [smoothNext]
    norm_num
  · simp only [writeCondition, restMotorMapping]
    simp [smoothNext]
    norm_num

/-- C3 (amended): output is re-applied iff the smoothed current value
changed by more than 1e-5 since the previous tick, OR the mapping is
continuously active AND |current| > 0.001; in particular a
continuously active mapping re-applies at rest only while its resting
value stays above 0.001 in absolute value. -/
theorem C3_write_skip_amended :
    (∀ m : MidiMapping, isContinuous m.targets = true ↔ ContinuouslyActive m) ∧
    (∀ (prev : ℝ) (m : MidiMapping),
      writeCondition prev m ↔
        |smoothNext prev m.target_value m.smooth_speed - prev| > 0.00001 ∨
        (ContinuouslyActive m ∧
          |smoothNext prev m.target_value m.smooth_speed| > 0.001)) ∧
    (∀ m : MidiMapping, ContinuouslyActive m → |m.target_value| > 0.001 →
      writeCondition m.target_value m) ∧
    (∀ (prev : ℝ) (m : MidiMapping),
      |smoothNext prev m.target_value m.smooth_speed - prev| > 0.00001 →
      writeCondition prev m) := by
  refine ⟨isContinuous_iff, ?_, ?_, ?_⟩
  · intro prev m
    rw [writeCondition]
    rw [isContinuous_iff]
  · intro m hc ht
    rw [writeCondition]
    right
    rw [smoothNext_self]
    exact ⟨(isContinuous_iff m).mpr hc, ht⟩
  · intro prev m h
    rw [writeCondition]
    exact Or.inl h

/-- Witness for the amended C3: a continuous mapping resting at 1/2
re-applies, and an ordinary knob mapping re-applies while settling
from 0.25 toward 0. -/
theorem C3_write_skip_amended_witness :
    writeCondition activeMotorMapping.target_value activeMotorMapping ∧
    writeCondition 0.25 knobMapping := by
  constructor
  · exact C3_write_skip_amended.2.2.1 activeMotorMapping
      ⟨⟨"p", 0, 1, "ACCUMULATE", ""⟩, by simp [activeMotorMapping], Or.inl rfl⟩
      (by simp only [activeMotorMapping]; norm_num [abs_of_nonneg])
  · apply C3_write_skip_amended.2.2.2 0.25 knobMapping
    simp only [knobMapping, smoothNext]
    norm_num [abs_of_nonneg, abs_of_nonpos]

/-- C8: event normalization (note-off normalizes to value 0) and the
routing rule — a mapping's targetValue is updated iff the ids match
and the event kind matches the mapping's mode; accepted knob events
set value/127, accepted note events set 1.0 for positive value else
0.0; every other combination leaves the mapping untouched. -/
theorem C8_event_routing :
    (∀ c v : ℤ, normalizeMsg (.control_change c v) = ("CC", c, v)) ∧
    (∀ n v : ℤ, normalizeMsg (.note_on n v) = ("Note", n, v)) ∧
    (∀ n v : ℤ, normalizeMsg (.note_off n v) = ("Note", n, 0)) ∧
    (∀ (m : MidiMapping) (mtype : String) (mid mval : ℤ),
      m.midi_cc ≠ mid → updateMappingTarget m mtype mid mval = m) ∧
    (∀ (m : MidiMapping) (mid mval : ℤ), m.use_note = true →
      updateMappingTarget m "CC" mid mval = m) ∧
    (∀ (m : MidiMapping) (mid mval : ℤ), m.use_note = false →
      updateMappingTarget m "Note" mid mval = m) ∧
    (∀ (m : MidiMapping) (mid mval : ℤ), m.use_note = true → m.midi_cc = mid →
      updateMappingTarget m "Note" mid mval =
        { m with target_value := if mval > 0 then 1.0 else 0.0 }) ∧
    (∀ (m : MidiMapping) (mid mval : ℤ), m.use_note = false → m.midi_cc = mid →
      updateMappingTarget m "CC" mid mval =
        { m with target_value := (mval : ℝ) / 127.0 }) ∧
    (∀ m : MidiMapping, 0 ≤ m.midi_cc →
      updateMappingTarget m (normalizeMsg .other).1 (normalizeMsg .other).2.1
        (normalizeMsg .other).2.2 = m) := by
  refine ⟨fun c v => rfl, fun n v => rfl, fun n v => rfl, ?_, ?_, ?_, ?_, ?_, ?_⟩
  · intro m mtype mid mval h
    simp [updateMappingTarget, h]
  · intro m mid mval h
    by_cases hid : m.midi_cc = mid <;> simp [updateMappingTarget, h, hid]
  · intro m mid mval h
    by_cases hid : m.midi_cc = mid <;> simp [updateMappingTarget, h, hid]
  · intro m mid mval h hid
    simp [updateMappingTarget, h, hid]
  · intro m mid mval h hid
    simp [updateMappingTarget, h, hid]
  · intro m hcc
    have hne : m.midi_cc ≠ (normalizeMsg .other).2.1 := by
      simp only [normalizeMsg]
      omega
    simp [updateMappingTarget, hne]

/-- Witness for C8 at concrete events: CC 64 on a knob mapping, note
on/off on a key mapping, and the ignored cross cases. -/
theorem C8_event_routing_witness :
    updateMappingTarget knobMapping "CC" 5 64 =
      { knobMapping with target_value := (64 : ℝ) / 127.0 } ∧
    updateMappingTarget keyMapping "Note" 5 100 =
      { keyMapping with target_value := if (100 : ℤ) > 0 then 1.0 else 0.0 } ∧
    updateMappingTarget keyMapping "Note" 5 0 =
      { keyMapping with target_value := if (0 : ℤ) > 0 then 1.0 else 0.0 } ∧
    updateMappingTarget keyMapping "CC" 5 64 = keyMapping ∧
    updateMappingTarget knobMapping "Note" 5 100 = knobMapping ∧
    updateMappingTarget knobMapping "CC" 9 64 = knobMapping ∧
    updateMappingTarget knobMapping (normalizeMsg .other).1
      (normalizeMsg .other).2.1 (normalizeMsg .other).2.2 = knobMapping :=
  ⟨C8_event_routing.2.2.2.2.2.2.2.1 knobMapping 5 64 rfl rfl,
    C8_event_routing.2.2.2.2.2.2.1 keyMapping 5 100 rfl rfl,
    C8_event_routing.2.2.2.2.2.2.1 keyMapping 5 0 rfl rfl,
    C8_event_routing.2.2.2.2.1 keyMapping 5 64 rfl,
    C8_event_routing.2.2.2.2.2.1 knobMapping 5 100 rfl,
    C8_event_routing.2.2.2.1 knobMapping "CC" 9 64 (by decide),
    C8_event_routing.2.2.2.2.2.2.2.2 knobMapping (by decide)⟩

/-- For speeds below 1 the smoothing step moves by speed*0.2 with
clamping (the else arm of the speed test never fires). -/
theorem smoothNext_eq (c tgt s : ℝ) (hs1 : s < 1) :
    smoothNext c tgt s =
      if |c - tgt| < 0.001 then tgt
      else if c < tgt then min (c + s * 0.2) tgt else max (c - s * 0.2) tgt := by
  rw [smoothNext]
  norm_num [hs1]

/-- One smoothing tick either lands exactly on the target (by snap or
by clamp) or shrinks the distance to the target by exactly
speed * 0.2. -/
theorem smoothNext_step (c tgt s : ℝ) (hs0 : 0 < s) (hs1 : s < 1) :
    smoothNext c tgt s = tgt ∨
    |smoothNext c tgt s - tgt| = |c - tgt| - s * 0.2 := by
  rw [smoothNext_eq c tgt s hs1]
  by_cases hsnap : |c - tgt| < 0.001
  · left; rw [if_pos hsnap]
  · rw [if_neg hsnap]
    by_cases hlt : c < tgt
    · rw [if_pos hlt]
      by_cases hover : tgt ≤ c + s * 0.2
      · left; rw [min_eq_right hover]
      · right
        push_neg at hover
        rw [min_eq_left (le_of_lt hover)]
        rw [abs_of_neg (by linarith), abs_of_neg (by linarith)]
        ring
    · rw [if_neg hlt]
      push_neg at hlt
      by_cases hover : c - s * 0.2 ≤ tgt
      · left; rw [max_eq_right hover]
      · right
        push_neg at hover
        rw [max_eq_left (le_of_lt hover)]
        rw [abs_of_pos (by linarith), abs_of_nonneg (by linarith)]
        ring

/-- C7: for every speed in (0,1) and fixed target in [0,1], ticking
never increases the distance to the target (no overshoot), each
non-terminal tick moves exactly speed*0.2 closer, and after finitely
many ticks the current value equals the target and stays there (the
snap makes it exact, hence within 0.001). -/
theorem C7_smoothing_converges (s tgt c0 : ℝ) (hs0 : 0 < s) (hs1 : s < 1)
    (ht0 : 0 ≤ tgt) (ht1 : tgt ≤ 1) :
    (∀ n, |curSeq s tgt c0 (n + 1) - tgt| ≤ |curSeq s tgt c0 n - tgt|) ∧
    (∀ n, curSeq s tgt c0 (n + 1) = tgt ∨
      |curSeq s tgt c0 (n + 1) - tgt| = |curSeq s tgt c0 n - tgt| - s * 0.2) ∧
    (∃ N, ∀ n, N ≤ n → curSeq s tgt c0 n = tgt) := by
  have hstep : ∀ n, curSeq s tgt c0 (n + 1) = tgt ∨
      |curSeq s tgt c0 (n + 1) - tgt| = |curSeq s tgt c0 n - tgt| - s * 0.2 := by
    intro n
    exact smoothNext_step (curSeq s tgt c0 n) tgt s hs0 hs1
  have hmono : ∀ n, |curSeq s tgt c0 (n + 1) - tgt| ≤ |curSeq s tgt c0 n - tgt| := by
    intro n
    rcases hstep n with h | h
    · rw [h, sub_self, abs_zero]
      exact abs_nonneg _
    · rw [h]
      have : 0 < s * 0.2 := by positivity
      linarith
  refine ⟨hmono, hstep, ?_⟩
  have hbound : ∀ n, curSeq s tgt c0 n = tgt ∨
      |curSeq s tgt c0 n - tgt| ≤ |c0 - tgt| - n * (s * 0.2) := by
    intro n
    induction n with
    | zero => right; simp [curSeq]
    | succ k ihk =>
      rcases ihk with h | h
      · left
        show smoothNext (curSeq s tgt c0 k) tgt s = tgt
        rw [h, smoothNext_self]
      · rcases hstep k with h2 | h2
        · left; exact h2
        · right
          rw [h2]
          push_cast
          linarith
  obtain ⟨N, hN⟩ := exists_nat_gt (|c0 - tgt| / (s * 0.2))
  have hs2 : 0 < s * 0.2 := by positivity
  have hNs : |c0 - tgt| < N * (s * 0.2) := by
    rw [div_lt_iff₀ hs2] at hN
    exact hN
  refine ⟨N, ?_⟩
  intro n hn
  rcases hbound n with h | h
  · exact h
  · exfalso
    have habs : 0 ≤ |curSeq s tgt c0 n - tgt| := abs_nonneg _
    have hmon : (N : ℝ) * (s * 0.2) ≤ (n : ℝ) * (s * 0.2) := by
      have : (N : ℝ) ≤ (n : ℝ) := by exact_mod_cast hn
      nlinarith
    linarith

/-- Witness for C7 at speed 1/2, target 1, start 0. -/
theorem C7_smoothing_converges_witness :
    (∀ n, |curSeq (1/2) 1 0 (n + 1) - 1| ≤ |curSeq (1/2) 1 0 n - 1|) ∧
    (∀ n, curSeq (1/2) 1 0 (n + 1) = 1 ∨
      |curSeq (1/2) 1 0 (n + 1) - 1| = |curSeq (1/2) 1 0 n - 1| - (1/2) * 0.2) ∧
    (∃ N, ∀ n, N ≤ n → curSeq (1/2) 1 0 n = 1) :=
  C7_smoothing_converges (1/2) 1 0 (by norm_num) (by norm_num) (by norm_num)
    (by norm_num)

/-- On paths whose brackets never nest and are matched, the boolean
bracket flag of the source scanner coincides with a depth counter, so
the two splitters agree from any common state. -/
theorem rps_depth_agree :
    ∀ (cs : List Char) (inQ : Bool) (qc : Option Char) (d : Nat)
      (cur : String) (parts : List String),
      depthOkGo cs inQ qc d = true → d ≤ 1 →
      rpsGo cs inQ qc (decide (d = 1)) cur parts = depthGo cs inQ qc d cur parts := by
  intro cs
  induction cs with
  | nil => intro inQ qc d cur parts hok hd; rfl
  | cons c cs ih =>
    intro inQ qc d cur parts hok hd
    by_cases hq : c = squote ∨ c = dquote
    · have hdot : ¬c = '.' := by rcases hq with h | h <;> subst h <;> decide
      have hlb : ¬c = '[' := by rcases hq with h | h <;> subst h <;> decide
      have hrb : ¬c = ']' := by rcases hq with h | h <;> subst h <;> decide
      have hok2 := hok
      simp only [depthOkGo, rpsStep, if_pos hq] at hok2
      by_cases hiq : inQ = false
      · simp only [rpsGo, depthGo, depthOkGo, rpsStep, if_pos hq, if_pos hiq,
          hdot, hlb, hrb, false_and, if_false, and_false] at hok2 ⊢
        exact ih true (some c) d (cur.push c) parts hok2 hd
      · by_cases hqc : some c = qc
        · simp only [rpsGo, depthGo, depthOkGo, rpsStep, if_pos hq, if_neg hiq,
            if_pos hqc, hdot, hlb, hrb, false_and, if_false, and_false] at hok2 ⊢
          exact ih false none d (cur.push c) parts hok2 hd
        · simp only [rpsGo, depthGo, depthOkGo, rpsStep, if_pos hq, if_neg hiq,
            if_neg hqc, hdot, hlb, hrb, false_and, if_false, and_false] at hok2 ⊢
          exact ih inQ qc d (cur.push c) parts hok2 hd
    · by_cases hlb : c = '['
      · subst hlb
        by_cases hiq : inQ = false
        · subst hiq
          by_cases hd0 : d = 0
          · subst hd0
            have hok2 := hok
            simp [depthOkGo, rpsStep, hq] at hok2
            have hih := ih false qc 1 (cur.push '[') parts hok2 (by norm_num)
            simp [rpsGo, depthGo, rpsStep, hq]
            simpa using hih
          · exfalso
            have hok2 := hok
            simp [depthOkGo, rpsStep, hq, hd0] at hok2
        · simp only [Bool.not_eq_false] at hiq
          subst hiq
          have hok2 := hok
          simp [depthOkGo, rpsStep, hq] at hok2
          have hih := ih true qc d (cur.push '[') parts hok2 hd
          simp [rpsGo, depthGo, rpsStep, hq]
          simpa using hih
      · by_cases hrb : c = ']'
        · subst hrb
          by_cases hiq : inQ = false
          · subst hiq
            by_cases hd1 : d = 1
            · subst hd1
              have hok2 := hok
              simp [depthOkGo, rpsStep, hq] at hok2
              have hih := ih false qc 0 (cur.push ']') parts hok2 (by norm_num)
              simp [rpsGo, depthGo, rpsStep, hq]
              simpa using hih
            · exfalso
              have hok2 := hok
              simp [depthOkGo, rpsStep, hq, hd1] at hok2
          · simp only [Bool.not_eq_false] at hiq
            subst hiq
            have hok2 := hok
            simp [depthOkGo, rpsStep, hq] at hok2
            have hih := ih true qc d (cur.push ']') parts hok2 hd
            simp [rpsGo, depthGo, rpsStep, hq]
            simpa using hih
        · -- plain character (possibly the delimiter dot)
          have hok2 := hok
          simp [depthOkGo, rpsStep, hq, hlb, hrb] at hok2
          by_cases hdot : c = '.'
          · subst hdot
            by_cases hiq : inQ = false
            · subst hiq
              by_cases hd0 : d = 0
              · subst hd0
                have hih := ih false qc 0 "" (parts ++ [cur]) hok2 (by norm_num)
                simp [rpsGo, depthGo, rpsStep, hq, hlb, hrb]
                simpa using hih
              · have hd1 : d = 1 := by omega
                subst hd1
                have hih := ih false qc 1 (cur.push '.') parts hok2 (by norm_num)
                simp [rpsGo, depthGo, rpsStep, hq, hlb, hrb]
                simpa using hih
            · simp only [Bool.not_eq_false] at hiq
              subst hiq
              have hih := ih true qc d (cur.push '.') parts hok2 hd
              simp [rpsGo, depthGo, rpsStep, hq, hlb, hrb]
              simpa using hih
          · have hih := ih inQ qc d (cur.push c) parts hok2 hd
            simp [rpsGo, depthGo, rpsStep, hq, hlb, hrb, hdot]
            simpa using hih

/-- C5 counterexample: on the nested-bracket path a[b[0].c] the source
splitter starts a new segment at the dot (the inner close bracket
cleared the boolean flag), while the claim's depth-tracking scan keeps
the path whole — a dot at bracket depth 2 does start a new segment. -/
theorem C5_path_split_counterexample :
    robust_path_split nestedPath = ["a[b[0]", "c]"] ∧
    depth_tracking_split nestedPath = [nestedPath] ∧
    robust_path_split nestedPath ≠ depth_tracking_split nestedPath := by
  refine ⟨by decide, by decide, by decide⟩

/-- C5 (amended): the splitter performs a single left-to-right scan
tracking quote state and a boolean bracket flag; dots inside quotes
never split, and on every path whose brackets do not nest (depth stays
at most 1, matched) it agrees with the depth-tracking splitter of the
claim. -/
theorem C5_path_split_amended :
    ∀ path : String, depthOk path = true →
      robust_path_split path = depth_tracking_split path := by
  intro path h
  have hagree := rps_depth_agree path.toList false none 0 "" [] h (by norm_num)
  simpa [robust_path_split, depth_tracking_split] using hagree

/-- Witness for the amended C5: a realistic path with a dot inside a
quoted key inside brackets splits identically under both scanners,
into the four expected segments. -/
theorem C5_path_split_amended_witness :
    robust_path_split quotedPath = depth_tracking_split quotedPath ∧
    robust_path_split quotedPath =
      ["bpy", "data", "objects[" ++ dq ++ "my.cube" ++ dq ++ "]",
        "location[0]"] :=
  ⟨C5_path_split_amended quotedPath (by decide), by decide⟩

/-- C9: only the file read and JSON parse of the import are guarded —
an unreadable or syntactically invalid file is CANCELLED with the
scene unchanged — but a well-formed JSON file whose array holds a
non-object entry (such as the file containing only the array with the
number 1) makes the loop add a default mapping and then raise, leaving
the partially imported state committed, so a failed import of a
malformed mapping file does not restore the previous mapping
collection. -/
theorem C9_import_partial_state :
    (∀ scene : List MidiMapping,
      importMappings none scene = (scene, .cancelled)) ∧
    (∀ scene : List MidiMapping,
      importMappings (some [.num 1]) scene =
        (scene ++ [defaultMapping], .raised)) ∧
    (∀ scene : List MidiMapping, scene ++ [defaultMapping] ≠ scene) := by
  refine ⟨fun scene => rfl, fun scene => rfl, ?_⟩
  intro scene h
  have hlen := congrArg List.length h
  simp [List.length_append] at hlen
